import Mathlib

/-!
# sqlfs writer: `go/sqlfs/sql_writer.go`

A shallow embedding of the two flush closures (`flushToSQLTable`,
`clickhouseFlushToSQLTable`) and of `newSQLWriter`, together with the block
encoder they call, followed by the properties established about them.

Modelling conventions
* a Go `[]byte` is a `List Byte` with `Byte = Fin 256`;
* a Go `error` is the text it prints with `%v`; `nil` is `FlushResult.nil`;
* the variable `row` captured by a flush closure, the content of the target
  table and the requests sent to the database travel in an explicit `World`;
* what the driver answers during one flush call is an explicit input
  (`Replies`): the code is followed for every possible answer;
* a nil pointer dereference (a Go run-time panic) is `FlushResult.crash`;
* `row` is a Go `int`; it is a `Nat` here, a run of 2^31 or more successful
  inserts being out of reach of the model.
-/

namespace sqlfs

/-! ## Block encoder -/

/-- A byte, the element type of a Go byte slice. -/
abbrev Byte := Fin 256

/-- Modelled from the spec: the alphabet of "standard base64 (padded)", the
64 characters of RFC 4648 section 4, which is the table behind
`base64.StdEncoding` (Go standard library, its body is not part of the
repository sources). -/
def encodeStd : List Char :=
  "ABCDEFGHIJKLMNOPQRSTUVWXYZabcdefghijklmnopqrstuvwxyz0123456789+/".toList

/-- The padding character of the standard encoding. -/
def StdPadding : Char := '='

/-- The character for the low six bits of `v`, that is `encode[v & 0x3F]`. -/
def encChar (v : Nat) : Char :=
  encodeStd.getD (v % 64) StdPadding

/-- Modelled from the spec: the body of `base64.StdEncoding.EncodeToString`
(Go standard library, called at `sql_writer.go:33` and `:58`; not part of the
repository sources), "standard base64 (padded)": every three bytes become
four characters, a last group of one or two bytes becomes two or three
characters followed by padding up to four. The 24-bit group value
`b0<<16 | b1<<8 | b2` is written as a sum, and `v >> k` as `v / 2^k`. -/
def encodeChars : List Byte → List Char
  | [] => []
  | [a] =>
    let v := a.val * 65536
    [encChar (v / 262144), encChar (v / 4096), StdPadding, StdPadding]
  | [a, b] =>
    let v := a.val * 65536 + b.val * 256
    [encChar (v / 262144), encChar (v / 4096), encChar (v / 64), StdPadding]
  | a :: b :: c :: rest =>
    let v := a.val * 65536 + b.val * 256 + c.val
    encChar (v / 262144) :: encChar (v / 4096) :: encChar (v / 64) :: encChar v
      :: encodeChars rest

/-- The call `base64.StdEncoding.EncodeToString(buf)`. -/
def EncodeToString (buf : List Byte) : String :=
  String.mk (encodeChars buf)

/-- The value of a character in the standard alphabet (the decode map that
`base64.StdEncoding` derives from `encodeStd`), `none` outside of it. -/
def decodeMap (c : Char) : Option Nat :=
  let i := encodeStd.indexOf c
  if i < 64 then some i else none

/-- Modelled from the spec: decoding of one four-character quantum of
"standard base64 (padded)"; the reader side is outside the repository
sources. Padding may close the quantum with `==` (one byte) or `=` (two
bytes). -/
def decodeQuantum (c0 c1 c2 c3 : Char) : Option (List Byte) :=
  match decodeMap c0, decodeMap c1 with
  | some s0, some s1 =>
    if c2 = StdPadding then
      if c3 = StdPadding then
        let v := s0 * 262144 + s1 * 4096
        some [Fin.ofNat (v / 65536)]
      else none
    else
      match decodeMap c2 with
      | none => none
      | some s2 =>
        if c3 = StdPadding then
          let v := s0 * 262144 + s1 * 4096 + s2 * 64
          some [Fin.ofNat (v / 65536), Fin.ofNat (v / 256)]
        else
          match decodeMap c3 with
          | none => none
          | some s3 =>
            let v := s0 * 262144 + s1 * 4096 + s2 * 64 + s3
            some [Fin.ofNat (v / 65536), Fin.ofNat (v / 256), Fin.ofNat v]
  | _, _ => none

/-- Modelled from the spec: "base64-decoding" of a block, the inverse
direction of the standard padded encoding (`base64.StdEncoding.DecodeString`,
used by the reader side, outside the repository sources). The text is read
four characters at a time; padding is accepted in the last quantum only; a
character outside the alphabet or a truncated quantum is an error. -/
def decodeChars : List Char → Option (List Byte)
  | [] => some []
  | c0 :: c1 :: c2 :: c3 :: rest =>
    match decodeQuantum c0 c1 c2 c3 with
    | none => none
    | some bs =>
      if c3 = StdPadding then
        if rest = [] then some bs else none
      else
        match decodeChars rest with
        | none => none
        | some more => some (bs ++ more)
  | _ => none

/-- The call `base64.StdEncoding.DecodeString(block)`. -/
def DecodeString (block : String) : Option (List Byte) :=
  decodeChars block.data

/-! ## The database seen from a flush closure -/

/-- A live `*sql.DB`; an absent (nil) one is `none : Option SqlDB`. -/
structure SqlDB where
  handle : Nat
deriving DecidableEq, Repr

/-- A request sent to the database by a flush closure. -/
inductive DBCall where
  /-- The call `db.Exec(query)`. -/
  | exec (query : String)
  /-- The call `db.Begin()`. -/
  | begin
  /-- The call `tx.Prepare(query)`. -/
  | prepare (query : String)
  /-- The call `stmt.Exec(row, block)`. -/
  | stmtExec (row : Nat) (block : String)
  /-- The call `tx.Commit()`. -/
  | commit
  /-- The deferred `stmt.Close()`. -/
  | stmtClose
deriving DecidableEq, Repr

/-- What the driver answers during one flush call: for each kind of request
`none` when it succeeds, `some text` when it reports the error `text`. An
answer to a request the call never makes is not looked at. `execErr` answers
`db.Exec` in the generic closure and `stmt.Exec` in the clickhouse one. -/
structure Replies where
  execErr : Option String
  beginErr : Option String
  prepareErr : Option String
  commitErr : Option String
deriving DecidableEq, Repr

/-- The driver answers of a call in which every database operation succeeds. -/
def Replies.success : Replies :=
  { execErr := none, beginErr := none, prepareErr := none, commitErr := none }

/-- Every database operation of the call succeeds. -/
def Replies.allSucceed (r : Replies) : Prop :=
  r.execErr = none ∧ r.beginErr = none ∧ r.prepareErr = none ∧ r.commitErr = none

instance (r : Replies) : Decidable r.allSucceed := by
  unfold Replies.allSucceed; exact inferInstance

/-- What a flush call hands back: the `nil` error, an error with its text, or
no return at all because the call dereferenced a nil pointer. -/
inductive FlushResult where
  | nil
  | error (msg : String)
  | crash
deriving DecidableEq, Repr

/-- The state a flush closure works on: its captured counter `row`, the rows
the database has accepted into the table (oldest first) and every request
sent to the database so far (oldest first). A request that reports an error
inserts nothing. -/
structure World where
  row : Nat
  rows : List (Nat × String)
  calls : List DBCall
deriving DecidableEq, Repr

/-- The world of a closure that was just created (`row := 0`) on a table
that was just created. -/
def World.fresh : World :=
  { row := 0, rows := [], calls := [] }

/-- The statement built at `sql_writer.go:34`,
`fmt.Sprintf("INSERT INTO %s (id, block) VALUES(%d, '%s')", table, row, block)`. -/
def insertQuery (table : String) (row : Nat) (block : String) : String :=
  "INSERT INTO " ++ table ++ " (id, block) VALUES(" ++ toString row ++ ", '" ++ block ++ "')"

/-- The statement prepared at `sql_writer.go:52`,
`fmt.Sprintf("INSERT INTO %s (id, block) VALUES(?,?)", table)`. -/
def prepareQuery (table : String) : String :=
  "INSERT INTO " ++ table ++ " (id, block) VALUES(?,?)"

/-- The closure returned by `flushToSQLTable(db, table)` (`sql_writer.go:25-43`),
applied to `buf` in world `w` while the driver answers `r`. -/
def flushToSQLTable (db : Option SqlDB) (table : String)
    (w : World) (buf : List Byte) (r : Replies) : FlushResult × World :=
  match db with
  | none => (FlushResult.error "flushToSQLTable: no database connection", w)
  | some _ =>
    if buf.length > 0 then
      let block := EncodeToString buf
      let query := insertQuery table w.row block
      let w1 := { w with calls := w.calls ++ [DBCall.exec query] }
      match r.execErr with
      | some e => (FlushResult.error ("can't flush to table " ++ table ++ ": " ++ e), w1)
      | none =>
        (FlushResult.nil, { w1 with rows := w1.rows ++ [(w.row, block)], row := w.row + 1 })
    else (FlushResult.nil, w)

/-- The closure returned by `clickhouseFlushToSQLTable(db, table)`
(`sql_writer.go:45-70`), applied to `buf` in world `w` while the driver
answers `r`.

The errors of `db.Begin()` and `tx.Prepare(..)` are discarded (`tx, _ :=`,
`stmt, _ :=`). When `Begin` fails `tx` is nil and `tx.Prepare` dereferences
it; when `Prepare` fails `stmt` is nil and `stmt.Exec`, or else the deferred
`stmt.Close()`, dereferences it. `row++` (line 63) comes before `tx.Commit()`
(line 65). The row handed to `stmt.Exec` reaches the table when the commit
succeeds. -/
def clickhouseFlushToSQLTable (db : Option SqlDB) (table : String)
    (w : World) (buf : List Byte) (r : Replies) : FlushResult × World :=
  match db with
  | none => (FlushResult.error "clickhouse flushToSQLTable: no database connection", w)
  | some _ =>
    let w1 := { w with calls := w.calls ++ [DBCall.begin] }
    match r.beginErr with
    | some _ => (FlushResult.crash, w1)
    | none =>
      let w2 := { w1 with calls := w1.calls ++ [DBCall.prepare (prepareQuery table)] }
      match r.prepareErr with
      | some _ =>
        if buf.length > 0 then (FlushResult.crash, w2)
        else (FlushResult.crash, { w2 with calls := w2.calls ++ [DBCall.commit] })
      | none =>
        if buf.length > 0 then
          let block := EncodeToString buf
          let w3 := { w2 with calls := w2.calls ++ [DBCall.stmtExec w.row block] }
          match r.execErr with
          | some e =>
            (FlushResult.error ("clickhouse can't flush to table " ++ table ++ ": " ++ e),
              { w3 with calls := w3.calls ++ [DBCall.stmtClose] })
          | none =>
            let w4 := { w3 with row := w.row + 1 }
            match r.commitErr with
            | some e =>
              (FlushResult.error ("clickhouse can't flush to table " ++ table ++ ": " ++ e),
                { w4 with calls := w4.calls ++ [DBCall.commit, DBCall.stmtClose] })
            | none =>
              (FlushResult.nil,
                { w4 with rows := w4.rows ++ [(w.row, block)],
                          calls := w4.calls ++ [DBCall.commit, DBCall.stmtClose] })
        else
          match r.commitErr with
          | some e =>
            (FlushResult.error ("clickhouse can't flush to table " ++ table ++ ": " ++ e),
              { w2 with calls := w2.calls ++ [DBCall.commit, DBCall.stmtClose] })
          | none =>
            (FlushResult.nil, { w2 with calls := w2.calls ++ [DBCall.commit, DBCall.stmtClose] })

/-- A flush closure with the driver answers still to be supplied. -/
abbrev FlushFn := World → List Byte → Replies → FlushResult × World

/-- Successive calls of one flush closure, each with its buffer and the
answers the driver gives during it; the results are listed in call order.
The caller goes on after an error (or recovers from a crash), as nothing in
the closure forbids. -/
def runFlushes (flush : FlushFn) (w : World) :
    List (List Byte × Replies) → List FlushResult × World
  | [] => ([], w)
  | c :: rest =>
    let out := flush w c.1 c.2
    let tail := runFlushes flush out.2 rest
    (out.1 :: tail.1, tail.2)

/-- The number of calls that carry a non-empty buffer. -/
def nonEmptyCalls (calls : List (List Byte × Replies)) : Nat :=
  calls.countP (fun c => decide (0 < c.1.length))

/-! ## Reading the table back -/

/-- Decoding of a list of blocks one after another, the decoded bytes
concatenated; `none` as soon as one block does not decode. -/
def decodeBlocks : List String → Option (List Byte)
  | [] => some []
  | block :: rest =>
    match DecodeString block with
    | none => none
    | some bs =>
      match decodeBlocks rest with
      | none => none
      | some more => some (bs ++ more)

/-- Modelled from the spec: the reader side (outside the repository sources),
"reassembling persisted blocks in row-id order and base64-decoding each": the
rows are taken in ascending `id` order, every block is decoded and the
results are concatenated. -/
def reassemble (rows : List (Nat × String)) : Option (List Byte) :=
  decodeBlocks ((rows.insertionSort (fun a b => a.1 ≤ b.1)).map Prod.snd)

/-! ## The buffered writer and `newSQLWriter` -/

/-- What the driver will answer during a flush call that starts in a given
world. -/
abbrev Driver := World → Replies

/-- Modelled from the spec: the value built by
`newFlushWriteCloser(flush, wrapup, bufSize)` (repository code outside the
sources at hand), "a generic abstraction accepting (flushFn, wrapUpFn,
thresholdBytes)"; `buf` holds the bytes accumulated so far. -/
structure FlushWriteCloser where
  flush : FlushFn
  wrapup : Unit → FlushResult
  bufSize : Int
  buf : List Byte

/-- Modelled from the spec: the constructor `newFlushWriteCloser` (repository
code outside the sources at hand); it starts with nothing accumulated. -/
def newFlushWriteCloser (flush : FlushFn) (wrapup : Unit → FlushResult) (bufSize : Int) :
    FlushWriteCloser :=
  { flush := flush, wrapup := wrapup, bufSize := bufSize, buf := [] }

/-- Modelled from the spec: the write operation of the buffered writer
(repository code outside the sources at hand), "bytes are accumulated until
thresholdBytes is reached, at which point flushFn is invoked with exactly the
accumulated bytes and the internal buffer is cleared". A flush that does not
return `nil` ends the write with that result. -/
def FlushWriteCloser.Write (drv : Driver) :
    FlushWriteCloser → World → List Byte → FlushResult × FlushWriteCloser × World
  | wc, w, [] => (FlushResult.nil, wc, w)
  | wc, w, b :: p =>
    let buf1 := wc.buf ++ [b]
    if wc.bufSize ≤ (buf1.length : Int) then
      let out := wc.flush w buf1 (drv w)
      match out.1 with
      | FlushResult.nil => FlushWriteCloser.Write drv { wc with buf := [] } out.2 p
      | res => (res, { wc with buf := buf1 }, out.2)
    else FlushWriteCloser.Write drv { wc with buf := buf1 } w p

/-- Modelled from the spec: the close operation of the buffered writer
(repository code outside the sources at hand), "on close, any remaining
buffered bytes are flushed once more (even if below threshold, including zero
bytes) followed by exactly one invocation of wrapUpFn". -/
def FlushWriteCloser.Close (drv : Driver) (wc : FlushWriteCloser) (w : World) :
    FlushResult × World :=
  let out := wc.flush w wc.buf (drv w)
  match out.1 with
  | FlushResult.nil => (wc.wrapup (), out.2)
  | res => (res, out.2)

/-- Successive writes on one writer; the first write that does not return
`nil` ends the sequence. -/
def writeAll (drv : Driver) :
    FlushWriteCloser → World → List (List Byte) → FlushResult × FlushWriteCloser × World
  | wc, w, [] => (FlushResult.nil, wc, w)
  | wc, w, p :: ps =>
    let out := FlushWriteCloser.Write drv wc w p
    match out.1 with
    | FlushResult.nil => writeAll drv out.2.1 out.2.2 ps
    | res => (res, out.2.1, out.2.2)

/-- A whole stream: the writes one after another, then the close. -/
def writeStream (drv : Driver) (wc : FlushWriteCloser) (w : World)
    (chunks : List (List Byte)) : FlushResult × World :=
  let out := writeAll drv wc w chunks
  match out.1 with
  | FlushResult.nil => FlushWriteCloser.Close drv out.2.1 out.2.2
  | res => (res, out.2.2)

/-- The function `noopWrapUp` (`sql_writer.go:72-74`): it returns `nil`. -/
def noopWrapUp : Unit → FlushResult :=
  fun _ => FlushResult.nil

/-- The struct behind `*database.DB`: the embedded `*sql.DB` (nil when
`none`) and the driver name. The pointer itself is not nil, line 77 reads
through it. -/
structure Database where
  DB : Option SqlDB
  DriverName : String
deriving DecidableEq, Repr

/-- A table preparation step attempted by `newSQLWriter`. -/
inductive SetupCall where
  | dropTableIfExists (table : String)
  | createTable (table : String)
deriving DecidableEq, Repr

/-- What the two table preparation collaborators `dropTableIfExists` and
`createTable` (repository code outside the sources at hand) return: `none`
for `nil`, `some text` for an error. -/
structure SetupReplies where
  dropErr : Option String
  createErr : Option String
deriving DecidableEq, Repr

/-- The function `newSQLWriter(db, table, bufSize)` (`sql_writer.go:76-87`):
its result (the error text, or the writer) and the preparation steps it
attempted, in order. -/
def newSQLWriter (db : Database) (table : String) (bufSize : Int) (s : SetupReplies) :
    Except String FlushWriteCloser × List SetupCall :=
  match s.dropErr with
  | some e =>
    (Except.error ("can't drop table " ++ table ++ ": " ++ e),
      [SetupCall.dropTableIfExists table])
  | none =>
    match s.createErr with
    | some e =>
      (Except.error ("can't create table " ++ table ++ ": " ++ e),
        [SetupCall.dropTableIfExists table, SetupCall.createTable table])
    | none =>
      if db.DriverName = "clickhouse" then
        (Except.ok (newFlushWriteCloser (clickhouseFlushToSQLTable db.DB table) noopWrapUp bufSize),
          [SetupCall.dropTableIfExists table, SetupCall.createTable table])
      else
        (Except.ok (newFlushWriteCloser (flushToSQLTable db.DB table) noopWrapUp bufSize),
          [SetupCall.dropTableIfExists table, SetupCall.createTable table])

/-! ## Character classes of a block -/

/-- The single quote, which closes a quoted literal in the INSERT statement. -/
def singleQuote : Char := Char.ofNat 39

/-- The backslash, the escape character of some SQL dialects. -/
def backslash : Char := Char.ofNat 92

/-- A character in `A-Z`, `a-z`, `0-9`, or one of `+`, `/`, `=`. -/
def isBase64Char (c : Char) : Bool :=
  c.isUpper || c.isLower || c.isDigit || c == '+' || c == '/' || c == '='

/-- The text of a quoted literal: what follows its opening quote, up to the
first single quote. -/
def literalText (afterOpeningQuote : List Char) : List Char :=
  afterOpeningQuote.takeWhile (fun c => c != singleQuote)

/-! ## Invariants used in the proofs -/

/-- The table part of a world holds the byte stream `bytes`: the ids of its
rows, in insertion order, are `0, 1, ..`, up to the counter, and the blocks
decoded in that order give `bytes`. -/
def Stored (w : World) (bytes : List Byte) : Prop :=
  w.rows.map Prod.fst = List.range w.row ∧
  decodeBlocks (w.rows.map Prod.snd) = some bytes

/-! ## Properties of the flush closures -/

/-- One call of the generic closure in which the database operation succeeds. -/
theorem flushToSQLTable_success (db : SqlDB) (table : String) (w : World)
    (buf : List Byte) (r : Replies) (h : r.execErr = none) :
    flushToSQLTable (some db) table w buf r =
      (FlushResult.nil,
        if 0 < buf.length then
          { row := w.row + 1,
            rows := w.rows ++ [(w.row, EncodeToString buf)],
            calls := w.calls ++ [DBCall.exec (insertQuery table w.row (EncodeToString buf))] }
        else w) := by
  unfold flushToSQLTable
  by_cases hb : 0 < buf.length
  · simp [hb, h]
  · simp [hb]

/-- One call of the clickhouse closure in which every database operation
succeeds: the result and the part of the world the table is made of. -/
theorem clickhouseFlushToSQLTable_success (db : SqlDB) (table : String) (w : World)
    (buf : List Byte) (r : Replies) (h : r.allSucceed) :
    (clickhouseFlushToSQLTable (some db) table w buf r).1 = FlushResult.nil ∧
    (clickhouseFlushToSQLTable (some db) table w buf r).2.row
      = (if 0 < buf.length then w.row + 1 else w.row) ∧
    (clickhouseFlushToSQLTable (some db) table w buf r).2.rows
      = (if 0 < buf.length then w.rows ++ [(w.row, EncodeToString buf)] else w.rows) := by
  obtain ⟨h1, h2, h3, h4⟩ := h
  unfold clickhouseFlushToSQLTable
  by_cases hb : 0 < buf.length
  · simp [hb, h1, h2, h3, h4]
  · simp [hb, h2, h3, h4]

/-- The ids of the rows and the counter after a run of successful calls, from
any starting world, for a closure that behaves on success as both do. -/
theorem runFlushes_ids (flush : FlushFn)
    (hf : ∀ (w : World) (buf : List Byte) (r : Replies), r.allSucceed →
      (flush w buf r).1 = FlushResult.nil ∧
      (flush w buf r).2.row = (if 0 < buf.length then w.row + 1 else w.row) ∧
      (flush w buf r).2.rows
        = (if 0 < buf.length then w.rows ++ [(w.row, EncodeToString buf)] else w.rows))
    (calls : List (List Byte × Replies)) (h : ∀ c ∈ calls, c.2.allSucceed) (w : World) :
    (∀ res ∈ (runFlushes flush w calls).1, res = FlushResult.nil) ∧
    (runFlushes flush w calls).2.row = w.row + nonEmptyCalls calls ∧
    (runFlushes flush w calls).2.rows.map Prod.fst
      = w.rows.map Prod.fst ++ List.range' w.row (nonEmptyCalls calls) := by
  induction calls generalizing w with
  | nil => simp [runFlushes, nonEmptyCalls]
  | cons c rest ih =>
    have hc := hf w c.1 c.2 (h c (List.mem_cons_self _ _))
    have hrest : ∀ d ∈ rest, d.2.allSucceed := fun d hd => h d (List.mem_cons_of_mem _ hd)
    have ih1 := ih hrest (flush w c.1 c.2).2
    obtain ⟨hres, hrow, hrows⟩ := hc
    obtain ⟨i1, i2, i3⟩ := ih1
    simp only [nonEmptyCalls] at i2 i3 ⊢
    refine ⟨?_, ?_, ?_⟩
    · intro res hmem
      simp only [runFlushes, List.mem_cons] at hmem
      rcases hmem with hmem | hmem
      · rw [hmem, hres]
      · exact i1 res hmem
    · simp only [runFlushes, i2, hrow, List.countP_cons]
      by_cases hb : 0 < c.1.length
      · simp [hb]
        omega
      · simp [hb]
    · simp only [runFlushes, i3, hrow, hrows, List.countP_cons]
      by_cases hb : 0 < c.1.length
      · simp [hb, List.range'_succ]
      · simp [hb]

/-! ## Row numbering -/

/-- C1. For both flush closures, freshly created on a live connection: after
any sequence of calls in which every database operation succeeds, N of them
with a non-empty buffer, every call returned `nil`, exactly N rows were
inserted, their ids in insertion order are 0, 1, ..., N-1, and the counter
is N. -/
theorem rows_numbered_from_zero (db : SqlDB) (table : String)
    (calls : List (List Byte × Replies)) (h : ∀ c ∈ calls, c.2.allSucceed) :
    ((∀ res ∈ (runFlushes (flushToSQLTable (some db) table) World.fresh calls).1,
        res = FlushResult.nil) ∧
      (runFlushes (flushToSQLTable (some db) table) World.fresh calls).2.rows.length
        = nonEmptyCalls calls ∧
      (runFlushes (flushToSQLTable (some db) table) World.fresh calls).2.rows.map Prod.fst
        = List.range (nonEmptyCalls calls) ∧
      (runFlushes (flushToSQLTable (some db) table) World.fresh calls).2.row
        = nonEmptyCalls calls) ∧
    ((∀ res ∈ (runFlushes (clickhouseFlushToSQLTable (some db) table) World.fresh calls).1,
        res = FlushResult.nil) ∧
      (runFlushes (clickhouseFlushToSQLTable (some db) table) World.fresh calls).2.rows.length
        = nonEmptyCalls calls ∧
      (runFlushes (clickhouseFlushToSQLTable (some db) table) World.fresh calls).2.rows.map
          Prod.fst
        = List.range (nonEmptyCalls calls) ∧
      (runFlushes (clickhouseFlushToSQLTable (some db) table) World.fresh calls).2.row
        = nonEmptyCalls calls) := by
  have key : ∀ flush : FlushFn,
      (∀ (w : World) (buf : List Byte) (r : Replies), r.allSucceed →
        (flush w buf r).1 = FlushResult.nil ∧
        (flush w buf r).2.row = (if 0 < buf.length then w.row + 1 else w.row) ∧
        (flush w buf r).2.rows
          = (if 0 < buf.length then w.rows ++ [(w.row, EncodeToString buf)] else w.rows)) →
      ((∀ res ∈ (runFlushes flush World.fresh calls).1, res = FlushResult.nil) ∧
        (runFlushes flush World.fresh calls).2.rows.length = nonEmptyCalls calls ∧
        (runFlushes flush World.fresh calls).2.rows.map Prod.fst
          = List.range (nonEmptyCalls calls) ∧
        (runFlushes flush World.fresh calls).2.row = nonEmptyCalls calls) := by
    intro flush hf
    obtain ⟨h1, h2, h3⟩ := runFlushes_ids flush hf calls h World.fresh
    have h3b : (runFlushes flush World.fresh calls).2.rows.map Prod.fst
        = List.range (nonEmptyCalls calls) := by
      rw [h3, List.range_eq_range']
      simp [World.fresh]
    refine ⟨h1, ?_, h3b, ?_⟩
    · have hl := congrArg List.length h3b
      simpa using hl
    · simpa [World.fresh] using h2
  refine ⟨key _ ?_, key _ ?_⟩
  · intro w buf r hr
    rw [flushToSQLTable_success db table w buf r hr.1]
    by_cases hb : 0 < buf.length <;> simp [hb]
  · intro w buf r hr
    exact clickhouseFlushToSQLTable_success db table w buf r hr

/-- C1 at a concrete run: an empty call between two non-empty ones. -/
theorem rows_numbered_from_zero_witness :
    (∀ c ∈ [([65], Replies.success), ([], Replies.success), ([66, 67], Replies.success)],
      Replies.allSucceed (Prod.snd (c : List Byte × Replies))) ∧
    (runFlushes (flushToSQLTable (some ⟨1⟩) "t1") World.fresh
      [([65], Replies.success), ([], Replies.success), ([66, 67], Replies.success)]).2.rows.map
        Prod.fst = List.range 2 ∧
    (runFlushes (clickhouseFlushToSQLTable (some ⟨1⟩) "t1") World.fresh
      [([65], Replies.success), ([], Replies.success), ([66, 67], Replies.success)]).2.row
        = 2 :=
  have hw : ∀ c ∈ [(([65] : List Byte), Replies.success), ([], Replies.success),
      ([66, 67], Replies.success)], Replies.allSucceed (Prod.snd c) := by decide
  ⟨hw, (rows_numbered_from_zero ⟨1⟩ "t1" _ hw).1.2.2.1,
    (rows_numbered_from_zero ⟨1⟩ "t1" _ hw).2.2.2.2⟩

/-! ## Failures and no-ops of one flush call -/

/-- C4. Generic closure, non-empty buffer, counter `w.row`: when the INSERT
execution fails with driver text `e`, the call returns the error
"can't flush to table <table>: <e>", inserts nothing and leaves the counter
at `w.row`; a retry of the same buffer right after, whatever the driver
answers then, sends the same INSERT (same id, same encoded block). -/
theorem generic_exec_failure_keeps_row (db : SqlDB) (table : String) (w : World)
    (buf : List Byte) (r retry : Replies) (e : String)
    (hbuf : 0 < buf.length) (hfail : r.execErr = some e) :
    (flushToSQLTable (some db) table w buf r).1
      = FlushResult.error ("can't flush to table " ++ table ++ ": " ++ e) ∧
    (flushToSQLTable (some db) table w buf r).2.row = w.row ∧
    (flushToSQLTable (some db) table w buf r).2.rows = w.rows ∧
    (flushToSQLTable (some db) table w buf r).2.calls
      = w.calls ++ [DBCall.exec (insertQuery table w.row (EncodeToString buf))] ∧
    (flushToSQLTable (some db) table (flushToSQLTable (some db) table w buf r).2 buf retry).2.calls
      = (flushToSQLTable (some db) table w buf r).2.calls
        ++ [DBCall.exec (insertQuery table w.row (EncodeToString buf))] := by
  have h1 : flushToSQLTable (some db) table w buf r
      = (FlushResult.error ("can't flush to table " ++ table ++ ": " ++ e),
          { w with calls := w.calls
              ++ [DBCall.exec (insertQuery table w.row (EncodeToString buf))] }) := by
    simp [flushToSQLTable, hbuf, hfail]
  rw [h1]
  refine ⟨rfl, rfl, rfl, rfl, ?_⟩
  unfold flushToSQLTable
  cases hr : retry.execErr <;> simp [hbuf]

/-- C4 at a concrete input: a duplicate-key answer on the third row. -/
theorem generic_exec_failure_keeps_row_witness :
    (flushToSQLTable (some ⟨1⟩) "t1" { row := 2, rows := [], calls := [] } [69, 70]
        { execErr := some "duplicate key", beginErr := none, prepareErr := none,
          commitErr := none }).1
      = FlushResult.error "can't flush to table t1: duplicate key" ∧
    (flushToSQLTable (some ⟨1⟩) "t1" { row := 2, rows := [], calls := [] } [69, 70]
        { execErr := some "duplicate key", beginErr := none, prepareErr := none,
          commitErr := none }).2.row = 2 :=
  have h := generic_exec_failure_keeps_row ⟨1⟩ "t1" { row := 2, rows := [], calls := [] }
    [69, 70]
    { execErr := some "duplicate key", beginErr := none, prepareErr := none, commitErr := none }
    Replies.success "duplicate key" (by decide) rfl
  ⟨h.1, h.2.1⟩

/-- C6. With a connection present, from any world and whatever the driver
answers: a flush of the zero-length buffer inserts no row and leaves the
counter unchanged in both closures; the generic closure moreover returns `nil`
and leaves the whole world as it was, so it sent nothing to the database. -/
theorem empty_flush_is_noop (db : SqlDB) (table : String) (w : World) (r : Replies) :
    flushToSQLTable (some db) table w [] r = (FlushResult.nil, w) ∧
    (clickhouseFlushToSQLTable (some db) table w [] r).2.rows = w.rows ∧
    (clickhouseFlushToSQLTable (some db) table w [] r).2.row = w.row := by
  refine ⟨rfl, ?_, ?_⟩ <;>
    (unfold clickhouseFlushToSQLTable
     cases r.beginErr <;> cases r.prepareErr <;> cases r.commitErr <;> rfl)

/-- C7. With an absent (nil) connection, from any world, for any buffer and
whatever the driver would answer: both closures return their
"no database connection" error and leave the world as it was: no request
reaches the database, no row is inserted, the counter does not move. -/
theorem nil_connection_fails_first (table : String) (w : World) (buf : List Byte)
    (r : Replies) :
    flushToSQLTable none table w buf r
      = (FlushResult.error "flushToSQLTable: no database connection", w) ∧
    clickhouseFlushToSQLTable none table w buf r
      = (FlushResult.error "clickhouse flushToSQLTable: no database connection", w) :=
  ⟨rfl, rfl⟩

/-- C3, the code at a failing input. Clickhouse closure, fresh, one byte
flushed, `stmt.Exec` succeeds and `tx.Commit()` fails: the call returns the
commit error and no row is inserted, yet the counter is 1; the next flush,
fully successful, inserts its row under id 1 and the table holds no row 0. -/
theorem clickhouse_commit_failure_advances_row :
    (clickhouseFlushToSQLTable (some ⟨1⟩) "t1" World.fresh [65]
        { execErr := none, beginErr := none, prepareErr := none,
          commitErr := some "commit failed" }).1
      = FlushResult.error "clickhouse can't flush to table t1: commit failed" ∧
    (clickhouseFlushToSQLTable (some ⟨1⟩) "t1" World.fresh [65]
        { execErr := none, beginErr := none, prepareErr := none,
          commitErr := some "commit failed" }).2.rows = [] ∧
    (clickhouseFlushToSQLTable (some ⟨1⟩) "t1" World.fresh [65]
        { execErr := none, beginErr := none, prepareErr := none,
          commitErr := some "commit failed" }).2.row = 1 ∧
    (runFlushes (clickhouseFlushToSQLTable (some ⟨1⟩) "t1") World.fresh
        [([65], { execErr := none, beginErr := none, prepareErr := none,
                  commitErr := some "commit failed" }),
         ([65], Replies.success)]).2.rows = [(1, "QQ==")] := by
  decide

/-- C5, the code at two failing inputs. Clickhouse closure on a live
connection, one byte flushed: when `db.Begin()` reports an error, and when
`tx.Prepare` reports an error, the call does not return an error, it
dereferences a nil pointer; with an empty buffer and a failed `Prepare` it
does so after the commit. -/
theorem clickhouse_begin_prepare_errors_dropped :
    (clickhouseFlushToSQLTable (some ⟨1⟩) "t1" World.fresh [65]
        { execErr := none, beginErr := some "bad connection", prepareErr := none,
          commitErr := none }).1 = FlushResult.crash ∧
    (clickhouseFlushToSQLTable (some ⟨1⟩) "t1" World.fresh [65]
        { execErr := none, beginErr := none, prepareErr := some "no such table",
          commitErr := none }).1 = FlushResult.crash ∧
    (clickhouseFlushToSQLTable (some ⟨1⟩) "t1" World.fresh []
        { execErr := none, beginErr := none, prepareErr := some "no such table",
          commitErr := none }).1 = FlushResult.crash := by
  decide

/-! ## `newSQLWriter` -/

/-- The two closures are different functions, on any connection. -/
theorem clickhouse_ne_generic (conn : Option SqlDB) (table : String) :
    clickhouseFlushToSQLTable conn table ≠ flushToSQLTable conn table := by
  intro h
  have h2 := congrFun (congrFun (congrFun h World.fresh) []) Replies.success
  cases conn with
  | none =>
    simp only [clickhouseFlushToSQLTable, flushToSQLTable, Prod.mk.injEq,
      FlushResult.error.injEq] at h2
    exact absurd h2.1 (by decide)
  | some db =>
    have h3 := congrArg (fun out : FlushResult × World => out.2.calls.length) h2
    simp [clickhouseFlushToSQLTable, flushToSQLTable, Replies.success, World.fresh] at h3

/-- C8. When both table preparation steps succeed, `newSQLWriter` returns a
writer whose flush function is the clickhouse closure exactly when the driver
name is the string "clickhouse", and the generic closure exactly when it is
any other string; in both cases the wrap-up function is `noopWrapUp`, the
buffer size is the caller's, and nothing is buffered yet. The empty name and
names that differ from "clickhouse" in case or by surrounding white space get
the generic closure. -/
theorem backend_selected_by_driver_name (db : Database) (table : String) (bufSize : Int) :
    (∃ wc : FlushWriteCloser,
      (newSQLWriter db table bufSize { dropErr := none, createErr := none }).1 = Except.ok wc ∧
      (wc.flush = clickhouseFlushToSQLTable db.DB table ↔ db.DriverName = "clickhouse") ∧
      (wc.flush = flushToSQLTable db.DB table ↔ db.DriverName ≠ "clickhouse") ∧
      wc.wrapup = noopWrapUp ∧ wc.bufSize = bufSize ∧ wc.buf = []) ∧
    (∀ name ∈ ["", "ClickHouse", "CLICKHOUSE", "Clickhouse", " clickhouse", "clickhouse ",
        "clickhouse\n", "click house", "mysql"],
      (newSQLWriter { DB := db.DB, DriverName := name } table bufSize
          { dropErr := none, createErr := none }).1
        = Except.ok (newFlushWriteCloser (flushToSQLTable db.DB table) noopWrapUp bufSize)) := by
  constructor
  · by_cases hd : db.DriverName = "clickhouse"
    · refine ⟨newFlushWriteCloser (clickhouseFlushToSQLTable db.DB table) noopWrapUp bufSize,
        ?_, ?_, ?_, rfl, rfl, rfl⟩
      · simp [newSQLWriter, hd]
      · simp [newFlushWriteCloser, hd]
      · simp only [newFlushWriteCloser, hd, ne_eq, not_true_eq_false, iff_false]
        exact clickhouse_ne_generic db.DB table
    · refine ⟨newFlushWriteCloser (flushToSQLTable db.DB table) noopWrapUp bufSize,
        ?_, ?_, ?_, rfl, rfl, rfl⟩
      · simp [newSQLWriter, hd]
      · simp only [newFlushWriteCloser, hd, iff_false]
        exact fun h => clickhouse_ne_generic db.DB table h.symm
      · simp [newFlushWriteCloser, hd]
  · intro name hname
    have hne : name ≠ "clickhouse" := by
      intro h
      subst h
      revert hname
      decide
    simp [newSQLWriter, hne]

/-- C9. `newSQLWriter` attempts the drop first; when the drop fails it
returns the error "can't drop table <table>: <cause>" and no writer, and the
create is not attempted; when the drop succeeds it attempts the create, and
when that fails it returns "can't create table <table>: <cause>" and no
writer; a writer is returned exactly when both steps succeed. The function
has no access to a `World`: it calls no flush closure. -/
theorem setup_errors_return_no_writer (db : Database) (table : String) (bufSize : Int)
    (s : SetupReplies) :
    (newSQLWriter db table bufSize s).2.head? = some (SetupCall.dropTableIfExists table) ∧
    (∀ e, s.dropErr = some e →
      newSQLWriter db table bufSize s
        = (Except.error ("can't drop table " ++ table ++ ": " ++ e),
            [SetupCall.dropTableIfExists table])) ∧
    (s.dropErr = none →
      (newSQLWriter db table bufSize s).2
        = [SetupCall.dropTableIfExists table, SetupCall.createTable table]) ∧
    (∀ e, s.dropErr = none → s.createErr = some e →
      (newSQLWriter db table bufSize s).1
        = Except.error ("can't create table " ++ table ++ ": " ++ e)) ∧
    ((∃ wc, (newSQLWriter db table bufSize s).1 = Except.ok wc)
      ↔ s.dropErr = none ∧ s.createErr = none) := by
  unfold newSQLWriter
  cases hd : s.dropErr <;> cases hc : s.createErr <;>
    by_cases hn : db.DriverName = "clickhouse" <;> simp [hn]

/-! ## The block encoder -/

/-- The 64 entries of the alphabet, checked one by one: each is a base64
character, decodes to its own index, and is not the padding character. -/
theorem encChar_table : ∀ i, i < 64 →
    (isBase64Char (encodeStd.getD i StdPadding) = true ∧
      decodeMap (encodeStd.getD i StdPadding) = some i ∧
      encodeStd.getD i StdPadding ≠ StdPadding) := by
  decide

/-- Every character the encoder picks from the alphabet is a base64 character. -/
theorem encChar_isBase64Char (v : Nat) : isBase64Char (encChar v) = true :=
  (encChar_table (v % 64) (Nat.mod_lt _ (by decide))).1

/-- The decode map inverts the alphabet lookup. -/
theorem decodeMap_encChar (v : Nat) : decodeMap (encChar v) = some (v % 64) :=
  (encChar_table (v % 64) (Nat.mod_lt _ (by decide))).2.1

/-- The alphabet does not contain the padding character. -/
theorem encChar_ne_padding (v : Nat) : encChar v ≠ StdPadding :=
  (encChar_table (v % 64) (Nat.mod_lt _ (by decide))).2.2

/-- Four characters for every started group of three bytes. -/
theorem encodeChars_length (buf : List Byte) :
    (encodeChars buf).length = 4 * ((buf.length + 2) / 3) := by
  induction buf using encodeChars.induct with
  | case1 => rfl
  | case2 a => simp [encodeChars]
  | case3 a b => simp [encodeChars]
  | case4 a b c rest ih =>
    simp only [encodeChars, List.length_cons, ih]
    omega

/-- Every character of an encoded block is a base64 character. -/
theorem encodeChars_isBase64Char (buf : List Byte) :
    ∀ c ∈ encodeChars buf, isBase64Char c = true := by
  induction buf using encodeChars.induct with
  | case1 => simp [encodeChars]
  | case2 a =>
    intro c hc
    simp only [encodeChars, List.mem_cons, List.mem_singleton, List.not_mem_nil, or_false] at hc
    rcases hc with h | h | h | h <;> subst h <;> first | exact encChar_isBase64Char _ | decide
  | case3 a b =>
    intro c hc
    simp only [encodeChars, List.mem_cons, List.mem_singleton, List.not_mem_nil, or_false] at hc
    rcases hc with h | h | h | h <;> subst h <;> first | exact encChar_isBase64Char _ | decide
  | case4 a b c rest ih =>
    intro x hx
    simp only [encodeChars, List.mem_cons] at hx
    rcases hx with h | h | h | h | h
    · subst h; exact encChar_isBase64Char _
    · subst h; exact encChar_isBase64Char _
    · subst h; exact encChar_isBase64Char _
    · subst h; exact encChar_isBase64Char _
    · exact ih x h

/-- Decoding an encoded block gives the bytes back. -/
theorem decodeChars_encodeChars (buf : List Byte) :
    decodeChars (encodeChars buf) = some buf := by
  induction buf using encodeChars.induct with
  | case1 => rfl
  | case2 a =>
    simp only [encodeChars, decodeChars, decodeQuantum, decodeMap_encChar, if_true]
    simp only [Option.some.injEq, List.cons.injEq, and_true]
    apply Fin.ext
    simp only [Fin.ofNat]
    omega
  | case3 a b =>
    simp only [encodeChars, decodeChars, decodeQuantum, decodeMap_encChar, if_true,
      encChar_ne_padding, if_false]
    simp only [Option.some.injEq, List.cons.injEq, and_true]
    refine ⟨?_, ?_⟩ <;> apply Fin.ext <;> simp only [Fin.ofNat] <;> omega
  | case4 a b c rest ih =>
    simp only [encodeChars, decodeChars, decodeQuantum, decodeMap_encChar,
      encChar_ne_padding, if_false, ih]
    simp only [Option.some.injEq, List.cons_append, List.nil_append, List.cons.injEq, and_true]
    refine ⟨?_, ?_, ?_⟩ <;> apply Fin.ext <;> simp only [Fin.ofNat] <;> omega

/-- C10. The block encoder is a function on every byte sequence; the block
of `n` bytes has `4 * ceil(n / 3)` characters, each in `A-Z`, `a-z`, `0-9`,
`+`, `/`, `=`, none a single quote or a backslash; the generic INSERT
statement is its head, a quote, the block, a quote and `)`, and the literal
read from the opening quote to the first quote is the block itself. -/
theorem block_is_padded_base64 (buf : List Byte) (table : String) (row : Nat) :
    (EncodeToString buf).length = 4 * ((buf.length + 2) / 3) ∧
    (∀ c ∈ (EncodeToString buf).data, isBase64Char c = true) ∧
    (∀ c ∈ (EncodeToString buf).data, c ≠ singleQuote ∧ c ≠ backslash) ∧
    (insertQuery table row (EncodeToString buf)).data
      = ("INSERT INTO " ++ table ++ " (id, block) VALUES(" ++ toString row ++ ", ").data
        ++ singleQuote :: ((EncodeToString buf).data ++ [singleQuote, ')']) ∧
    literalText ((EncodeToString buf).data ++ [singleQuote, ')']) = (EncodeToString buf).data := by
  have hq : ∀ c ∈ encodeChars buf, c ≠ singleQuote ∧ c ≠ backslash := by
    intro c hc
    have hb := encodeChars_isBase64Char buf c hc
    constructor
    · intro h
      subst h
      revert hb
      decide
    · intro h
      subst h
      revert hb
      decide
  refine ⟨?_, encodeChars_isBase64Char buf, hq, ?_, ?_⟩
  · simp [EncodeToString, encodeChars_length]
  · have h1 : (", '" : String).data = (", " : String).data ++ [singleQuote] := by decide
    have h2 : ("')" : String).data = [singleQuote, ')'] := by decide
    simp only [insertQuery, String.data_append, h1, h2, List.append_assoc]
    rfl
  · simp only [EncodeToString, literalText]
    have hgen : ∀ l : List Char, (∀ c ∈ l, c ≠ singleQuote) →
        List.takeWhile (fun c => c != singleQuote) (l ++ [singleQuote, ')']) = l := by
      intro l
      induction l with
      | nil => intro _; decide
      | cons x xs ih =>
        intro hx
        have hx1 : x ≠ singleQuote := hx x (List.mem_cons_self _ _)
        have hxs : ∀ c ∈ xs, c ≠ singleQuote := fun c hc => hx c (List.mem_cons_of_mem _ hc)
        have hx2 : (x != singleQuote) = true := by simpa using hx1
        rw [List.cons_append, List.takeWhile_cons, hx2, ih hxs]
        rfl
    exact hgen _ (fun c hc => (hq c hc).1)

/-! ## Round trip -/

/-- A flush closure that, when every database operation succeeds, returns
`nil` and appends the encoded buffer under the current counter, or does
nothing to the table for an empty buffer. Both closures are such. -/
theorem closures_append_on_success (db : SqlDB) (table : String) :
    ∀ flush ∈ [flushToSQLTable (some db) table, clickhouseFlushToSQLTable (some db) table],
      ∀ (w : World) (buf : List Byte) (r : Replies), r.allSucceed →
        (flush w buf r).1 = FlushResult.nil ∧
        (flush w buf r).2.row = (if 0 < buf.length then w.row + 1 else w.row) ∧
        (flush w buf r).2.rows
          = (if 0 < buf.length then w.rows ++ [(w.row, EncodeToString buf)] else w.rows) := by
  intro flush hmem w buf r hr
  simp only [List.mem_cons, List.mem_singleton, List.not_mem_nil, or_false] at hmem
  rcases hmem with h | h
  · subst h
    rw [flushToSQLTable_success db table w buf r hr.1]
    by_cases hb : 0 < buf.length <;> simp [hb]
  · subst h
    exact clickhouseFlushToSQLTable_success db table w buf r hr

/-- Decoding distributes over the concatenation of block lists. -/
theorem decodeBlocks_append (xs ys : List String) (a b : List Byte)
    (hx : decodeBlocks xs = some a) (hy : decodeBlocks ys = some b) :
    decodeBlocks (xs ++ ys) = some (a ++ b) := by
  induction xs generalizing a with
  | nil =>
    simp only [decodeBlocks, Option.some.injEq] at hx
    subst hx
    simpa using hy
  | cons x rest ih =>
    simp only [decodeBlocks] at hx
    cases hd : DecodeString x with
    | none => simp [hd] at hx
    | some bs =>
      cases hr : decodeBlocks rest with
      | none => simp [hd, hr] at hx
      | some more =>
        simp only [hd, hr, Option.some.injEq] at hx
        subst hx
        simp [decodeBlocks, hd, ih more hr]

/-- A single encoded block decodes to its buffer. -/
theorem decodeBlocks_encoded (buf : List Byte) :
    decodeBlocks [EncodeToString buf] = some buf := by
  simp [decodeBlocks, DecodeString, EncodeToString, decodeChars_encodeChars]

/-- A successful flush keeps the table a faithful store of the stream. -/
theorem stored_after_flush (flush : FlushFn)
    (hf : ∀ (w : World) (buf : List Byte) (r : Replies), r.allSucceed →
      (flush w buf r).1 = FlushResult.nil ∧
      (flush w buf r).2.row = (if 0 < buf.length then w.row + 1 else w.row) ∧
      (flush w buf r).2.rows
        = (if 0 < buf.length then w.rows ++ [(w.row, EncodeToString buf)] else w.rows))
    (w : World) (buf : List Byte) (r : Replies) (hr : r.allSucceed)
    (bytes : List Byte) (hs : Stored w bytes) :
    (flush w buf r).1 = FlushResult.nil ∧ Stored (flush w buf r).2 (bytes ++ buf) := by
  obtain ⟨h1, h2, h3⟩ := hf w buf r hr
  obtain ⟨s1, s2⟩ := hs
  refine ⟨h1, ?_, ?_⟩
  · rw [h2, h3]
    by_cases hb : 0 < buf.length
    · simp [hb, s1, List.range_succ]
    · simp [hb, s1]
  · rw [h3]
    by_cases hb : 0 < buf.length
    · simp only [hb, if_true, List.map_append, List.map_cons, List.map_nil]
      exact decodeBlocks_append _ _ _ _ s2 (decodeBlocks_encoded buf)
    · have hnil : buf = [] := List.length_eq_zero.mp (by omega)
      simp [hb, hnil, s2]

/-- A table that stores `bytes` reads back as `bytes`. -/
theorem reassemble_of_stored (w : World) (bytes : List Byte) (hs : Stored w bytes) :
    reassemble w.rows = some bytes := by
  obtain ⟨s1, s2⟩ := hs
  have hsorted : List.Sorted (fun a b : Nat × String => a.1 ≤ b.1) w.rows := by
    have h := List.pairwise_le_range w.row
    rw [← s1, List.pairwise_map] at h
    exact h
  unfold reassemble
  rw [List.Sorted.insertionSort_eq hsorted]
  exact s2

/-- A run of successful flushes stores the buffers one after another. -/
theorem stored_after_runFlushes (flush : FlushFn)
    (hf : ∀ (w : World) (buf : List Byte) (r : Replies), r.allSucceed →
      (flush w buf r).1 = FlushResult.nil ∧
      (flush w buf r).2.row = (if 0 < buf.length then w.row + 1 else w.row) ∧
      (flush w buf r).2.rows
        = (if 0 < buf.length then w.rows ++ [(w.row, EncodeToString buf)] else w.rows))
    (calls : List (List Byte × Replies)) (h : ∀ c ∈ calls, c.2.allSucceed)
    (w : World) (bytes : List Byte) (hs : Stored w bytes) :
    Stored (runFlushes flush w calls).2 (bytes ++ (calls.map Prod.fst).flatten) := by
  induction calls generalizing w bytes with
  | nil => simpa [runFlushes] using hs
  | cons c rest ih =>
    have hc := stored_after_flush flush hf w c.1 c.2 (h c (List.mem_cons_self _ _)) bytes hs
    have hrest : ∀ d ∈ rest, d.2.allSucceed := fun d hd => h d (List.mem_cons_of_mem _ hd)
    have := ih hrest _ _ hc.2
    simpa [runFlushes, List.append_assoc] using this

/-- A write on a writer built around such a closure, with a driver that
always succeeds: it returns `nil`, and the stored stream followed by the
buffered bytes is the earlier one followed by the bytes written. -/
theorem stored_after_write (drv : Driver) (hdrv : ∀ w, (drv w).allSucceed) (flush : FlushFn)
    (hf : ∀ (w : World) (buf : List Byte) (r : Replies), r.allSucceed →
      (flush w buf r).1 = FlushResult.nil ∧
      (flush w buf r).2.row = (if 0 < buf.length then w.row + 1 else w.row) ∧
      (flush w buf r).2.rows
        = (if 0 < buf.length then w.rows ++ [(w.row, EncodeToString buf)] else w.rows))
    (p : List Byte) (wc : FlushWriteCloser) (w : World) (bytes : List Byte)
    (hwc : wc.flush = flush) (hs : Stored w bytes) :
    (FlushWriteCloser.Write drv wc w p).1 = FlushResult.nil ∧
    (FlushWriteCloser.Write drv wc w p).2.1.flush = flush ∧
    (FlushWriteCloser.Write drv wc w p).2.1.wrapup = wc.wrapup ∧
    ∃ stored, Stored (FlushWriteCloser.Write drv wc w p).2.2 stored ∧
      stored ++ (FlushWriteCloser.Write drv wc w p).2.1.buf = bytes ++ wc.buf ++ p := by
  induction p generalizing wc w bytes with
  | nil => exact ⟨rfl, hwc, rfl, bytes, hs, by simp [FlushWriteCloser.Write]⟩
  | cons b p ih =>
    by_cases hfull : wc.bufSize ≤ ((wc.buf ++ [b]).length : Int)
    · have hfl := stored_after_flush flush hf w (wc.buf ++ [b]) (drv w) (hdrv w) bytes hs
      rw [← hwc] at hfl
      have hstep : FlushWriteCloser.Write drv wc w (b :: p)
          = FlushWriteCloser.Write drv { wc with buf := [] }
              (wc.flush w (wc.buf ++ [b]) (drv w)).2 p := by
        simp only [FlushWriteCloser.Write, hfull, if_true, hfl.1]
      have := ih { wc with buf := [] } _ _ hwc hfl.2
      rw [hstep]
      obtain ⟨i1, i2, i3, stored, i4, i5⟩ := this
      exact ⟨i1, i2, i3, stored, i4, by simpa [List.append_assoc] using i5⟩
    · have hstep : FlushWriteCloser.Write drv wc w (b :: p)
          = FlushWriteCloser.Write drv { wc with buf := wc.buf ++ [b] } w p := by
        simp only [FlushWriteCloser.Write, hfull, if_false]
      have := ih { wc with buf := wc.buf ++ [b] } w bytes hwc hs
      rw [hstep]
      obtain ⟨i1, i2, i3, stored, i4, i5⟩ := this
      exact ⟨i1, i2, i3, stored, i4, by simpa [List.append_assoc] using i5⟩

/-- Successive writes: the stored stream followed by the buffered bytes is
the earlier one followed by all the bytes written. -/
theorem stored_after_writeAll (drv : Driver) (hdrv : ∀ w, (drv w).allSucceed) (flush : FlushFn)
    (hf : ∀ (w : World) (buf : List Byte) (r : Replies), r.allSucceed →
      (flush w buf r).1 = FlushResult.nil ∧
      (flush w buf r).2.row = (if 0 < buf.length then w.row + 1 else w.row) ∧
      (flush w buf r).2.rows
        = (if 0 < buf.length then w.rows ++ [(w.row, EncodeToString buf)] else w.rows))
    (chunks : List (List Byte)) (wc : FlushWriteCloser) (w : World) (bytes : List Byte)
    (hwc : wc.flush = flush) (hs : Stored w bytes) :
    (writeAll drv wc w chunks).1 = FlushResult.nil ∧
    (writeAll drv wc w chunks).2.1.flush = flush ∧
    (writeAll drv wc w chunks).2.1.wrapup = wc.wrapup ∧
    ∃ stored, Stored (writeAll drv wc w chunks).2.2 stored ∧
      stored ++ (writeAll drv wc w chunks).2.1.buf = bytes ++ wc.buf ++ chunks.flatten := by
  induction chunks generalizing wc w bytes with
  | nil => exact ⟨rfl, hwc, rfl, bytes, hs, by simp [writeAll]⟩
  | cons p ps ih =>
    obtain ⟨w1, w2, w3, stored, w4, w5⟩ := stored_after_write drv hdrv flush hf p wc w bytes hwc hs
    have hstep : writeAll drv wc w (p :: ps)
        = writeAll drv (FlushWriteCloser.Write drv wc w p).2.1
            (FlushWriteCloser.Write drv wc w p).2.2 ps := by
      simp only [writeAll, w1]
    obtain ⟨i1, i2, i3, stored2, i4, i5⟩ := ih _ _ stored w2 w4
    rw [hstep]
    refine ⟨i1, i2, i3.trans w3, stored2, i4, ?_⟩
    rw [i5, w5]
    simp [List.append_assoc]

/-- A whole stream through a writer built around such a closure, with a
driver that always succeeds and the no-op wrap-up: the close returns `nil`
and the table reads back as the bytes written. -/
theorem writeStream_roundtrip (drv : Driver) (hdrv : ∀ w, (drv w).allSucceed) (flush : FlushFn)
    (hf : ∀ (w : World) (buf : List Byte) (r : Replies), r.allSucceed →
      (flush w buf r).1 = FlushResult.nil ∧
      (flush w buf r).2.row = (if 0 < buf.length then w.row + 1 else w.row) ∧
      (flush w buf r).2.rows
        = (if 0 < buf.length then w.rows ++ [(w.row, EncodeToString buf)] else w.rows))
    (bufSize : Int) (chunks : List (List Byte)) :
    (writeStream drv (newFlushWriteCloser flush noopWrapUp bufSize) World.fresh chunks).1
      = FlushResult.nil ∧
    reassemble
        (writeStream drv (newFlushWriteCloser flush noopWrapUp bufSize) World.fresh chunks).2.rows
      = some chunks.flatten := by
  have hfresh : Stored World.fresh [] := ⟨rfl, rfl⟩
  have hall := stored_after_writeAll drv hdrv flush hf chunks
    (newFlushWriteCloser flush noopWrapUp bufSize) World.fresh [] rfl hfresh
  unfold writeStream
  generalize writeAll drv (newFlushWriteCloser flush noopWrapUp bufSize) World.fresh chunks
    = out at hall ⊢
  obtain ⟨res, wc1, w1⟩ := out
  obtain ⟨a1, a2, a3, stored, a4, a5⟩ := hall
  simp only at a1 a2 a3 a4 a5
  have hclose := stored_after_flush flush hf w1 wc1.buf (drv w1) (hdrv w1) stored a4
  rw [← a2] at hclose
  have hw : wc1.wrapup () = FlushResult.nil := by rw [a3]; rfl
  simp only [a1, FlushWriteCloser.Close, hclose.1, hw, true_and]
  rw [reassemble_of_stored _ _ hclose.2, a5]
  simp [newFlushWriteCloser]

/-- C2. Round trip. On a live connection, with a positive buffer size and a
driver whose every operation succeeds: the writer `newSQLWriter` returns
(around either closure, by driver name) takes any split of a byte sequence
into successive writes, then the close, without error, and the blocks of the
table, decoded in ascending id order and concatenated, are the bytes written.
Over the closures alone: after any list of buffers flushed in order the table
reads back as their concatenation. With threshold 4 on a generic backend,
writing "ABCDEF" and closing sends two INSERTs and leaves exactly the rows
(0, "QUJDRA==") and (1, "RUY="). -/
theorem stream_roundtrip (db : Database) (conn : SqlDB) (hconn : db.DB = some conn)
    (table : String) (bufSize : Int) (_hpos : 0 < bufSize)
    (drv : Driver) (hdrv : ∀ w, (drv w).allSucceed) (chunks : List (List Byte))
    (calls : List (List Byte × Replies)) (hcalls : ∀ c ∈ calls, c.2.allSucceed) :
    (∃ wc : FlushWriteCloser,
      (newSQLWriter db table bufSize { dropErr := none, createErr := none }).1 = Except.ok wc ∧
      (writeStream drv wc World.fresh chunks).1 = FlushResult.nil ∧
      reassemble (writeStream drv wc World.fresh chunks).2.rows = some chunks.flatten) ∧
    reassemble (runFlushes (flushToSQLTable db.DB table) World.fresh calls).2.rows
      = some (calls.map Prod.fst).flatten ∧
    reassemble (runFlushes (clickhouseFlushToSQLTable db.DB table) World.fresh calls).2.rows
      = some (calls.map Prod.fst).flatten ∧
    (∃ wc : FlushWriteCloser,
      (newSQLWriter { DB := some { handle := 1 }, DriverName := "mysql" } "t1" 4
          { dropErr := none, createErr := none }).1 = Except.ok wc ∧
      writeStream (fun _ => Replies.success) wc World.fresh [[65, 66, 67, 68, 69, 70]]
        = (FlushResult.nil,
            { row := 2,
              rows := [(0, "QUJDRA=="), (1, "RUY=")],
              calls := [DBCall.exec "INSERT INTO t1 (id, block) VALUES(0, 'QUJDRA==')",
                        DBCall.exec "INSERT INTO t1 (id, block) VALUES(1, 'RUY=')"] })) := by
  have hboth := closures_append_on_success conn table
  have hgen := hboth (flushToSQLTable (some conn) table) (by simp)
  have hck := hboth (clickhouseFlushToSQLTable (some conn) table) (by simp)
  have hfresh : Stored World.fresh [] := ⟨rfl, rfl⟩
  rw [hconn]
  refine ⟨?_, ?_, ?_, ?_⟩
  · by_cases hd : db.DriverName = "clickhouse"
    · refine ⟨newFlushWriteCloser (clickhouseFlushToSQLTable (some conn) table) noopWrapUp
        bufSize, by simp [newSQLWriter, hd, hconn], ?_⟩
      exact writeStream_roundtrip drv hdrv _ hck bufSize chunks
    · refine ⟨newFlushWriteCloser (flushToSQLTable (some conn) table) noopWrapUp
        bufSize, by simp [newSQLWriter, hd, hconn], ?_⟩
      exact writeStream_roundtrip drv hdrv _ hgen bufSize chunks
  · have := stored_after_runFlushes _ hgen calls hcalls World.fresh [] hfresh
    simpa using reassemble_of_stored _ _ this
  · have := stored_after_runFlushes _ hck calls hcalls World.fresh [] hfresh
    simpa using reassemble_of_stored _ _ this
  · exact ⟨_, rfl, by decide⟩

/-- C2 at a concrete stream: "ABCDEF" written as "AB" then "CDEF" through a
writer with threshold 4, and the same bytes flushed as "ABCD" then "EF". -/
theorem stream_roundtrip_witness :
    (0 : Int) < 4 ∧
    (∃ wc : FlushWriteCloser,
      (newSQLWriter { DB := some { handle := 1 }, DriverName := "clickhouse" } "t1" 4
          { dropErr := none, createErr := none }).1 = Except.ok wc ∧
      (writeStream (fun _ => Replies.success) wc World.fresh
          [[65, 66], [67, 68, 69, 70]]).1 = FlushResult.nil ∧
      reassemble (writeStream (fun _ => Replies.success) wc World.fresh
          [[65, 66], [67, 68, 69, 70]]).2.rows = some [65, 66, 67, 68, 69, 70]) ∧
    reassemble (runFlushes (flushToSQLTable (some { handle := 1 }) "t1") World.fresh
        [([65, 66, 67, 68], Replies.success), ([69, 70], Replies.success)]).2.rows
      = some [65, 66, 67, 68, 69, 70] :=
  have h := stream_roundtrip { DB := some { handle := 1 }, DriverName := "clickhouse" }
    { handle := 1 } rfl "t1" 4 (by decide) (fun _ => Replies.success)
    (fun _ => ⟨rfl, rfl, rfl, rfl⟩) [[65, 66], [67, 68, 69, 70]]
    [([65, 66, 67, 68], Replies.success), ([69, 70], Replies.success)] (by decide)
  ⟨by decide, h.1, h.2.1⟩

end sqlfs
